import Mathlib

/-
Verification of the csalt command-line wrapper (TheCacophonyProject/csalt).

Shallow embedding of cmd/csalt/main.go.  Pure functions of the Go source are
translated to Lean functions; the process-level effects (network calls to the
remote directory API, password prompts, the external salt invocation) are
modelled by an explicit oracle structure (World) and an event trace, so that
claims about what is dispatched and what is never dispatched become statements
about the trace.

Go strings are modelled as Lean String; byte positions coincide with character
positions at every place the code slices, because slicing only happens at the
position of an ASCII colon.  Go strings.TrimSpace is modelled by trimming
Char.isWhitespace characters on both ends, which agrees with Go on all ASCII
whitespace.
-/

namespace Csalt

/-- userapi.Device as used by main.go: group name, device name and the numeric
salt id returned by the remote directory. -/
structure Device where
  GroupName : String
  DeviceName : String
  SaltId : Int
deriving DecidableEq

/-- DeviceQuery from main.go: parsed device references, parsed group
references, and the original raw argument text. -/
structure DeviceQuery where
  devices : List Device
  groups : List String
  rawArg : String
deriving DecidableEq

/-- userapi.DeviceResponse as used by main.go: devices resolved from group
references and devices resolved from name references. -/
structure DeviceResponse where
  Devices : List Device
  NameMatches : List Device
deriving DecidableEq

/-- DeviceQuery.RawQuery from main.go: len(devQ.rawArg) > 0. -/
def DeviceQuery.RawQuery (devQ : DeviceQuery) : Bool :=
  devQ.rawArg.length > 0

/-- DeviceQuery.HasValues from main.go:
len(devQ.devices) > 0 or len(devQ.groups) > 0. -/
def DeviceQuery.HasValues (devQ : DeviceQuery) : Bool :=
  devQ.devices.length > 0 || devQ.groups.length > 0

/-- Go strings.Split(s, ",") on the character list: splits at every comma and
never returns an empty list (the empty input gives one empty field). -/
def splitOnComma : List Char → List (List Char)
  | [] => [[]]
  | c :: rest =>
    if c = ',' then [] :: splitOnComma rest
    else
      match splitOnComma rest with
      | t :: ts => (c :: t) :: ts
      | [] => [[c]]

/-- Go strings.TrimSpace on the character list: drop whitespace from both
ends. -/
def trimChars (l : List Char) : List Char :=
  ((l.dropWhile Char.isWhitespace).reverse.dropWhile Char.isWhitespace).reverse

/-- Go strings.Index(s, ":"): position of the first colon, none when absent. -/
def colonIndex : List Char → Option Nat
  | [] => none
  | c :: rest =>
    if c = ':' then some 0
    else (colonIndex rest).map (· + 1)

/-- One iteration of the loop body of DeviceQuery.UnmarshalText: classify a
single comma-separated term and append the resulting reference.  The branch
structure mirrors the Go source: colon first (position 0), colon elsewhere
(group when the colon is last, device with group otherwise), no colon (bare
device name, also taken for the empty term). -/
def unmarshalTerm (devQ : DeviceQuery) (devInfo : List Char) : DeviceQuery :=
  match colonIndex devInfo with
  | some 0 =>
    { devQ with devices := devQ.devices ++
        [{ GroupName := "", DeviceName := (devInfo.drop 1).asString, SaltId := 0 }] }
  | some pos =>
    if devInfo.length = pos + 1 then
      { devQ with groups := devQ.groups ++ [(devInfo.take pos).asString] }
    else
      { devQ with devices := devQ.devices ++
          [{ GroupName := (devInfo.take pos).asString,
             DeviceName := (devInfo.drop (pos + 1)).asString, SaltId := 0 }] }
  | none =>
    { devQ with devices := devQ.devices ++
        [{ GroupName := "", DeviceName := devInfo.asString, SaltId := 0 }] }

/-- DeviceQuery.UnmarshalText from main.go: record the raw argument, trim the
input, split on commas and classify every term in order. -/
def UnmarshalText (b : String) : DeviceQuery :=
  (splitOnComma (trimChars b.toList)).foldl unmarshalTerm
    { devices := [], groups := [], rawArg := b }

/-- The Go method returns an error value; its body has a single return nil, so
the result is always ok. -/
def UnmarshalTextE (b : String) : Except String DeviceQuery :=
  .ok (UnmarshalText b)

/-- Classification of one term as a device reference, when the Go loop appends
to devQ.devices: used to state order preservation of the parse. -/
def termDevice (t : List Char) : Option Device :=
  match colonIndex t with
  | some 0 => some { GroupName := "", DeviceName := (t.drop 1).asString, SaltId := 0 }
  | some pos =>
    if t.length = pos + 1 then none
    else some { GroupName := (t.take pos).asString,
                DeviceName := (t.drop (pos + 1)).asString, SaltId := 0 }
  | none => some { GroupName := "", DeviceName := t.asString, SaltId := 0 }

/-- Classification of one term as a group reference, when the Go loop appends
to devQ.groups. -/
def termGroup (t : List Char) : Option String :=
  match colonIndex t with
  | some 0 => none
  | some pos => if t.length = pos + 1 then some (t.take pos).asString else none
  | none => none

/-- getSaltPrefix from main.go: the fixed base token pi, extended with a dash
and the salt environment token when that token is non-empty.  The serverURL
parameter is accepted and ignored, as in the source. -/
def getSaltPrefix (serverURL saltPrefix : String) : String :=
  if !(saltPrefix = "") then "pi" ++ ("-" ++ saltPrefix) else "pi"

/-- saltDeviceCommand from main.go: the loop writes each formatted identifier
into a buffer, preceded by a spacer that is empty for the first device and a
single space afterwards. -/
def saltDeviceCommand (serverURL : String) (devices : List Device)
    (saltPrefix : String) : String :=
  (devices.foldl
    (fun acc device =>
      (acc.1 ++ acc.2 ++ getSaltPrefix serverURL saltPrefix ++ "-" ++
        toString device.SaltId, " "))
    ("", "")).1

/-- Spec-side identifier format, following the words of the specification:
base token pi, extended with dash and prefix when the prefix is non-empty,
then dash and the decimal numeric id. -/
def specFormatId (device : Device) (saltPrefix : String) : String :=
  (if saltPrefix = "" then "pi" else "pi" ++ "-" ++ saltPrefix) ++ "-" ++
    toString device.SaltId

/-- Space-separated join, used to state the shape of saltDeviceCommand. -/
def joinSpace : List String → String
  | [] => ""
  | [x] => x
  | x :: y :: rest => x ++ " " ++ joinSpace (y :: rest)

/-- Plain concatenation, used while relating the buffer loop of
saltDeviceCommand to joinSpace. -/
def concatAll : List String → String
  | [] => ""
  | x :: rest => x ++ concatAll rest

/-- Association-list lookup standing for the Go map read
nameMap[device.DeviceName]. -/
def lookupName : List (String × List Device) → String → Option (List Device)
  | [], _ => none
  | (k, v) :: rest, name => if k = name then some v else lookupName rest name

/-- Association-list update standing for the Go map write
nameMap[name] = entry. -/
def updateEntry : List (String × List Device) → String → List Device →
    List (String × List Device)
  | [], _, _ => []
  | (k, v) :: rest, name, entry =>
    if k = name then (k, entry) :: rest
    else (k, v) :: updateEntry rest name entry

/-- The loop of checkForDuplicates from main.go: build the name map and
collect one entry in duplicateNames for every device whose name was already
present in the map. -/
def checkScan (devs : List Device) :
    List (String × List Device) × List String :=
  devs.foldl
    (fun acc device =>
      match lookupName acc.1 device.DeviceName with
      | none => (acc.1 ++ [(device.DeviceName, [device])], acc.2)
      | some entry =>
        (updateEntry acc.1 device.DeviceName (entry ++ [device]),
         acc.2 ++ [device.DeviceName]))
    ([], [])

/-- Length of the duplicateNames list built by checkForDuplicates. -/
def duplicateCount (devices : DeviceResponse) : Nat :=
  (checkScan devices.NameMatches).2.length

/-- The error text produced by checkForDuplicates for a given count. -/
def dupMessage (n : Nat) : String :=
  "DeviceName Query found " ++ toString n ++
    " Duplicate Device please specify group:devicename\n"

/-- checkForDuplicates from main.go: scan only the NameMatches of the
response; fail when the duplicateNames list is non-empty, with an error whose
text carries the length of that list.  The Devices list of the response is
not inspected. -/
def checkForDuplicates (devices : DeviceResponse) : Except String Unit :=
  if (checkScan devices.NameMatches).2.length > 0 then
    .error (dupMessage (checkScan devices.NameMatches).2.length)
  else .ok ()

/-- Duplicate collection expressed directly on the name list: a name is
emitted each time it occurs after a previous occurrence.  Proved equal to the
duplicateNames list of checkScan. -/
def dupNamesS : List String → List String → List String
  | _, [] => []
  | seen, n :: rest =>
    if n ∈ seen then n :: dupNamesS seen rest
    else dupNamesS (seen ++ [n]) rest

/-- First occurrences of a name list, in order. -/
def distinctNames (ns : List String) : List String :=
  ns.foldl (fun acc n => if n ∈ acc then acc else acc ++ [n]) []

/-- Spec-side count for the duplicate check, following the words of the
claim: the number of distinct device names having more than one resolved
device. -/
def specAmbiguousNameCount (devs : List Device) : Nat :=
  ((distinctNames (devs.map Device.DeviceName)).filter
    (fun n => decide (1 < (devs.map Device.DeviceName).count n))).length

/-- Outcome of one password prompt iteration: the prompt read fails, or the
remote Authenticate call succeeds, fails with an authentication error, or
fails with another error. -/
inductive PwOutcome where
  | readError (msg : String)
  | success
  | wrongPassword
  | otherError (msg : String)
deriving DecidableEq

/-- maxPasswordAttempts from main.go. -/
def maxPasswordAttempts : Nat := 3

/-- The loop of requestAuthentication from main.go, driven by the list of
prompt outcomes.  Each iteration reads a password and checks it; an
authentication failure increments the attempt counter and aborts with Max
Password Attempts once the counter reaches maxPasswordAttempts.  The Go loop
would block on the terminal for another password; the empty list therefore
only stands for an interaction that never resolves and is reported as an
error here, and no theorem below depends on that case. -/
def authLoop : List PwOutcome → Nat → Except String Unit
  | [], _ => .error "password input exhausted"
  | o :: rest, attempts =>
    match o with
    | .readError m => .error m
    | .success => .ok ()
    | .otherError m => .error m
    | .wrongPassword =>
      if attempts + 1 = maxPasswordAttempts then .error "Max Password Attempts"
      else authLoop rest (attempts + 1)

/-- requestAuthentication from main.go: the loop runs only while the api is
not authenticated; authenticated holds the oracle value of
api.Authenticated() on entry. -/
def requestAuthentication (authenticated : Bool) (pw : List PwOutcome) :
    Except String Unit :=
  if authenticated then .ok () else authLoop pw 0

/-- authenticateUser from main.go: prompt when not already authenticated,
then save a temporary token; save holds the oracle result of
api.SaveTemporaryToken. -/
def authenticateUser (authenticated : Bool) (pw : List PwOutcome)
    (save : Except String Unit) : Except String Unit :=
  if authenticated then save
  else
    match requestAuthentication false pw with
    | .error e => .error e
    | .ok _ => save

/-- Result of one api.TranslateNames call: a device response, an error for
which userapi.IsAuthenticationError holds, or any other error. -/
inductive TransResult where
  | ok (resp : DeviceResponse)
  | authErr (msg : String)
  | err (msg : String)
deriving DecidableEq

/-- Externally observable steps of a run: a network call to the translation
endpoint, an authentication cycle against the remote service, and an
invocation of the external orchestration tool with its full argument
vector. -/
inductive Event where
  | translateCall
  | authCycle
  | saltExec (argv : List String)
deriving DecidableEq

/-- Oracle for everything outside main.go: the config and server resolution
of apiFromArgs, the token file, the api.Authenticated views, the prompt
outcomes of the two possible authentication cycles, the token saves, the two
possible TranslateNames results, and the exit status of the external tool per
argument vector.  Modelled from the spec: the userapi package and the
external processes are collaborators outside the source slice. -/
structure World where
  apiOk : Bool
  apiErrMsg : String
  serverURL : String
  saltPrefix : String
  hasToken : Bool
  authedAtStart : Bool
  pw1 : List PwOutcome
  save1 : Except String Unit
  authedAfterT1 : Bool
  pw2 : List PwOutcome
  save2 : Except String Unit
  t1 : TransResult
  t2 : TransResult
  saltResult : List String → Except String Unit

/-- Arguments of runMain as far as its control flow reads them. -/
structure Args where
  DeviceInfo : DeviceQuery
  Commands : List String
  Show : Bool

/-- runSalt from main.go: prepend the tool name salt, then execute under
sudo, streaming the standard streams; the trace records the dispatched
argument vector and the result is the child exit status from the oracle. -/
def runSalt (w : World) (commands : List String) :
    Except String Unit × List Event :=
  (w.saltResult ("sudo" :: "salt" :: commands),
   [Event.saltExec ("sudo" :: "salt" :: commands)])

/-- runSaltForDevices from main.go: error when no device resolved, else
prepend the multi-target flag for more than one device, then the space-joined
identifiers, then the trailing command tokens. -/
def runSaltForDevices (w : World) (serverURL : String) (devices : List Device)
    (argCommands : List String) (saltPrefix : String) :
    Except String Unit × List Event :=
  if devices.length = 0 then (.error "No valid devices found", [])
  else
    runSalt w
      ((if devices.length > 1 then ["-L"] else []) ++
        [saltDeviceCommand serverURL devices saltPrefix] ++ argCommands)

/-- Lines 366 to 383 of runMain: the duplicate gate, the concatenation of
group matches and name matches, the print-only show branch, and the final
dispatch when trailing commands exist. -/
def afterTranslate (args : Args) (w : World) (devResp : DeviceResponse) :
    Except String Unit × List Event :=
  match checkForDuplicates devResp with
  | .error e => (.error e, [])
  | .ok _ =>
    if args.Commands.length > 0 then
      runSaltForDevices w w.serverURL (devResp.Devices ++ devResp.NameMatches)
        args.Commands w.saltPrefix
    else (.ok (), [])

/-- Lines 352 to 364 of runMain: call TranslateNames; on an authentication
error run a fresh authentication cycle and retry the call exactly once; any
remaining error aborts. -/
def translateAndRun (args : Args) (w : World) :
    Except String Unit × List Event :=
  match w.t1 with
  | .ok resp =>
    let r := afterTranslate args w resp
    (r.1, Event.translateCall :: r.2)
  | .authErr _ =>
    match authenticateUser w.authedAfterT1 w.pw2 w.save2 with
    | .error e => (.error e, [Event.translateCall, Event.authCycle])
    | .ok _ =>
      match w.t2 with
      | .ok resp =>
        let r := afterTranslate args w resp
        (r.1, Event.translateCall :: Event.authCycle :: Event.translateCall :: r.2)
      | .authErr m =>
        (.error m, [Event.translateCall, Event.authCycle, Event.translateCall])
      | .err m =>
        (.error m, [Event.translateCall, Event.authCycle, Event.translateCall])
  | .err m => (.error m, [Event.translateCall])

/-- Lines 336 to 364 of runMain: resolve the session from config and flags,
authenticate when no token is stored, then translate and dispatch. -/
def pipeline (args : Args) (w : World) : Except String Unit × List Event :=
  if !w.apiOk then (.error w.apiErrMsg, [])
  else if !w.hasToken then
    match authenticateUser w.authedAtStart w.pw1 w.save1 with
    | .error e => (.error e, [Event.authCycle])
    | .ok _ =>
      let r := translateAndRun args w
      (r.1, Event.authCycle :: r.2)
  else translateAndRun args w

/-- runMain from main.go: the top dispatch on commands and query, then the
translation pipeline. -/
def runMain (args : Args) (w : World) : Except String Unit × List Event :=
  if args.Commands.length = 0 then
    if args.DeviceInfo.RawQuery then
      if !args.Show then runSalt w [args.DeviceInfo.rawArg]
      else pipeline args w
    else (.error "Commands/deviceinfo must be specified", [])
  else if !args.DeviceInfo.HasValues then runSalt w args.Commands
  else pipeline args w

/-- Number of translation network calls recorded in a trace. -/
def countTranslate (evs : List Event) : Nat :=
  (evs.filter fun ev => match ev with | .translateCall => true | _ => false).length

/-- Number of external tool invocations recorded in a trace. -/
def countSalt (evs : List Event) : Nat :=
  (evs.filter fun ev => match ev with | .saltExec _ => true | _ => false).length

/-- Spec-side predicate, following the words of the specification: a query
text without the colon and comma syntax of device and group references. -/
def noStructuralMarkers (s : String) : Bool :=
  !(s.toList.contains ':') && !(s.toList.contains ',')

/-- A benign concrete oracle for witnesses and counterexamples. -/
def plainWorld : World where
  apiOk := true
  apiErrMsg := ""
  serverURL := "https://api.cacophony.org.nz"
  saltPrefix := ""
  hasToken := true
  authedAtStart := true
  pw1 := []
  save1 := .ok ()
  authedAfterT1 := true
  pw2 := []
  save2 := .ok ()
  t1 := .ok ⟨[], []⟩
  t2 := .ok ⟨[], []⟩
  saltResult := fun _ => .ok ()

/-- A concrete oracle whose first translation fails with an authentication
error and whose retried translation fails with a transport error. -/
def authFailWorld : World :=
  { plainWorld with
    t1 := TransResult.authErr "authentication required"
    authedAfterT1 := false
    pw2 := [PwOutcome.wrongPassword, PwOutcome.success]
    t2 := TransResult.err "translate failed" }

theorem string_length_zero_iff (s : String) : s.length = 0 ↔ s = "" := by
  cases s with
  | mk data => cases data <;> simp [String.length, String.ext_iff]

theorem unmarshalTerm_eq (dq : DeviceQuery) (t : List Char) :
    (unmarshalTerm dq t).devices = dq.devices ++ (termDevice t).toList ∧
    (unmarshalTerm dq t).groups = dq.groups ++ (termGroup t).toList ∧
    (unmarshalTerm dq t).rawArg = dq.rawArg := by
  unfold unmarshalTerm termDevice termGroup
  cases h : colonIndex t with
  | none => simp
  | some pos =>
    cases pos with
    | zero => simp
    | succ p => by_cases hl : t.length = p + 1 + 1 <;> simp [hl]

theorem term_exactly_one (t : List Char) :
    ((termDevice t).isSome ∧ termGroup t = none) ∨
    (termDevice t = none ∧ (termGroup t).isSome) := by
  unfold termDevice termGroup
  cases h : colonIndex t with
  | none => simp
  | some pos =>
    cases pos with
    | zero => simp
    | succ p => by_cases hl : t.length = p + 1 + 1 <;> simp [hl]

theorem foldl_unmarshal (terms : List (List Char)) (dq : DeviceQuery) :
    (terms.foldl unmarshalTerm dq).devices
        = dq.devices ++ terms.filterMap termDevice ∧
    (terms.foldl unmarshalTerm dq).groups
        = dq.groups ++ terms.filterMap termGroup ∧
    (terms.foldl unmarshalTerm dq).rawArg = dq.rawArg := by
  induction terms generalizing dq with
  | nil => simp
  | cons t rest ih =>
    obtain ⟨h1, h2, h3⟩ := unmarshalTerm_eq dq t
    obtain ⟨g1, g2, g3⟩ := ih (unmarshalTerm dq t)
    refine ⟨?_, ?_, ?_⟩ <;>
      simp [List.foldl_cons, g1, g2, g3, h1, h2, h3, List.filterMap_cons] <;>
      cases termDevice t <;> cases termGroup t <;> simp

theorem filterMap_term_length (terms : List (List Char)) :
    (terms.filterMap termDevice).length + (terms.filterMap termGroup).length
      = terms.length := by
  induction terms with
  | nil => rfl
  | cons t rest ih =>
    rcases term_exactly_one t with ⟨hd, hg⟩ | ⟨hd, hg⟩
    · obtain ⟨d, hd'⟩ := Option.isSome_iff_exists.mp hd
      simp [List.filterMap_cons, hd', hg]
      omega
    · obtain ⟨g, hg'⟩ := Option.isSome_iff_exists.mp hg
      simp [List.filterMap_cons, hd, hg']
      omega

theorem splitOnComma_length_pos (l : List Char) :
    0 < (splitOnComma l).length := by
  induction l with
  | nil => simp [splitOnComma]
  | cons c rest ih =>
    unfold splitOnComma
    by_cases hc : c = ','
    · simp [hc]
    · simp only [hc, if_false]
      cases h : splitOnComma rest <;> simp

theorem unmarshal_parts (s : String) :
    (UnmarshalText s).devices
        = (splitOnComma (trimChars s.toList)).filterMap termDevice ∧
    (UnmarshalText s).groups
        = (splitOnComma (trimChars s.toList)).filterMap termGroup ∧
    (UnmarshalText s).rawArg = s := by
  have h := foldl_unmarshal (splitOnComma (trimChars s.toList))
    { devices := [], groups := [], rawArg := s }
  simpa [UnmarshalText] using h

theorem unmarshal_ref_count (s : String) :
    (UnmarshalText s).devices.length + (UnmarshalText s).groups.length
      = (splitOnComma (trimChars s.toList)).length := by
  obtain ⟨h1, h2, _⟩ := unmarshal_parts s
  rw [h1, h2, filterMap_term_length]

theorem unmarshal_hasValues (s : String) :
    (UnmarshalText s).HasValues = true := by
  have hcount := unmarshal_ref_count s
  have hpos := splitOnComma_length_pos (trimChars s.toList)
  unfold DeviceQuery.HasValues
  rcases Nat.eq_zero_or_pos (UnmarshalText s).devices.length with hd | hd
  · have : 0 < (UnmarshalText s).groups.length := by omega
    simp [hd, this]
  · simp [hd]

theorem saltBuffer_eq (u p : String) (devices : List Device) (b : String) :
    (devices.foldl
        (fun acc device =>
          (acc.1 ++ acc.2 ++ getSaltPrefix u p ++ "-" ++ toString device.SaltId,
           " "))
        (b, " ")).1
      = b ++ concatAll (devices.map
          (fun device => " " ++ (getSaltPrefix u p ++ "-" ++ toString device.SaltId))) := by
  induction devices generalizing b with
  | nil => simp [concatAll]
  | cons d rest ih =>
    simp only [List.foldl_cons, List.map_cons, concatAll, ih]
    simp [String.append_assoc]

theorem joinSpace_shift (x : String) (rest : List String) :
    x ++ concatAll (rest.map (fun s => " " ++ s)) = joinSpace (x :: rest) := by
  induction rest generalizing x with
  | nil => simp [concatAll, joinSpace]
  | cons y ys ih =>
    simp only [List.map_cons, concatAll, joinSpace]
    rw [← ih y]
    simp [String.append_assoc]

theorem saltDeviceCommand_eq_joinSpace (u p : String) (devices : List Device) :
    saltDeviceCommand u devices p
      = joinSpace (devices.map
          (fun device => getSaltPrefix u p ++ "-" ++ toString device.SaltId)) := by
  unfold saltDeviceCommand
  cases devices with
  | nil => simp [joinSpace]
  | cons d rest =>
    simp only [List.foldl_cons, List.map_cons]
    rw [saltBuffer_eq]
    have : ("" : String) ++ "" ++ getSaltPrefix u p ++ "-" ++ toString d.SaltId
        = getSaltPrefix u p ++ "-" ++ toString d.SaltId := by simp
    rw [this]
    have h2 := joinSpace_shift (getSaltPrefix u p ++ "-" ++ toString d.SaltId)
      (List.map (fun device => getSaltPrefix u p ++ "-" ++ toString device.SaltId) rest)
    rw [List.map_map] at h2
    simpa [Function.comp] using h2

theorem lookupName_none_iff (m : List (String × List Device)) (n : String) :
    lookupName m n = none ↔ n ∉ m.map Prod.fst := by
  induction m with
  | nil => simp [lookupName]
  | cons kv rest ih =>
    obtain ⟨k, v⟩ := kv
    simp only [lookupName, List.map_cons, List.mem_cons]
    by_cases h : k = n
    · simp [h]
    · simp only [if_neg h, ih]
      constructor
      · intro hn
        rintro (rfl | hmem)
        · exact h rfl
        · exact hn hmem
      · intro hn
        exact fun hmem => hn (Or.inr hmem)

theorem updateEntry_keys (m : List (String × List Device)) (n : String)
    (e : List Device) :
    (updateEntry m n e).map Prod.fst = m.map Prod.fst := by
  induction m with
  | nil => simp [updateEntry]
  | cons kv rest ih =>
    obtain ⟨k, v⟩ := kv
    by_cases h : k = n <;> simp [updateEntry, h, ih]

theorem checkScan_dups_general (devs : List Device)
    (m : List (String × List Device)) (d : List String) :
    (devs.foldl
        (fun acc device =>
          match lookupName acc.1 device.DeviceName with
          | none => (acc.1 ++ [(device.DeviceName, [device])], acc.2)
          | some entry =>
            (updateEntry acc.1 device.DeviceName (entry ++ [device]),
             acc.2 ++ [device.DeviceName]))
        (m, d)).2
      = d ++ dupNamesS (m.map Prod.fst) (devs.map Device.DeviceName) := by
  induction devs generalizing m d with
  | nil => simp [dupNamesS]
  | cons dev rest ih =>
    by_cases h : dev.DeviceName ∈ m.map Prod.fst
    · obtain ⟨e, he⟩ : ∃ e, lookupName m dev.DeviceName = some e := by
        cases hl : lookupName m dev.DeviceName with
        | none => exact absurd ((lookupName_none_iff m _).mp hl) (not_not_intro h)
        | some e => exact ⟨e, rfl⟩
      simp only [List.foldl_cons, he]
      rw [ih, updateEntry_keys]
      simp [dupNamesS, h]
    · have he : lookupName m dev.DeviceName = none :=
        (lookupName_none_iff m _).mpr h
      simp only [List.foldl_cons, he]
      rw [ih]
      simp [dupNamesS, h]

theorem checkScan_dups (devs : List Device) :
    (checkScan devs).2 = dupNamesS [] (devs.map Device.DeviceName) := by
  have h := checkScan_dups_general devs [] []
  simpa [checkScan] using h

theorem dupNamesS_nil_iff (seen ns : List String) :
    dupNamesS seen ns = [] ↔ ns.Nodup ∧ ∀ n ∈ ns, n ∉ seen := by
  induction ns generalizing seen with
  | nil => simp [dupNamesS]
  | cons n rest ih =>
    by_cases h : n ∈ seen
    · simp only [dupNamesS, if_pos h]
      simp only [List.nodup_cons, List.mem_cons]
      constructor
      · intro hfalse
        exact absurd hfalse (by simp)
      · rintro ⟨_, hall⟩
        exact absurd (hall n (Or.inl rfl)) (not_not_intro h)
    · simp only [dupNamesS, if_neg h, ih, List.nodup_cons, List.mem_cons,
        List.mem_append, List.not_mem_nil, or_false]
      constructor
      · rintro ⟨hnd, hall⟩
        refine ⟨⟨fun hmem => ?_, hnd⟩, ?_⟩
        · have := hall n hmem
          simp at this
        · rintro x (rfl | hx)
          · exact h
          · intro hxs
            exact (hall x hx) (Or.inl hxs)
      · rintro ⟨⟨hnr, hnd⟩, hall⟩
        refine ⟨hnd, fun x hx => ?_⟩
        rintro (hxs | rfl)
        · exact (hall x (Or.inr hx)) hxs
        · exact hnr hx

theorem dupNamesS_length (seen ns : List String) :
    (dupNamesS seen ns).length +
      (ns.foldl (fun acc n => if n ∈ acc then acc else acc ++ [n]) seen).length
      = ns.length + seen.length := by
  induction ns generalizing seen with
  | nil => simp [dupNamesS]
  | cons n rest ih =>
    by_cases h : n ∈ seen
    · simp only [dupNamesS, if_pos h, List.foldl_cons, List.length_cons]
      have := ih seen
      omega
    · simp only [dupNamesS, if_neg h, List.foldl_cons, List.length_cons]
      have := ih (seen ++ [n])
      simp at this
      omega

theorem checkForDuplicates_ok_iff (resp : DeviceResponse) :
    checkForDuplicates resp = .ok ()
      ↔ (resp.NameMatches.map Device.DeviceName).Nodup := by
  unfold checkForDuplicates
  rw [checkScan_dups]
  by_cases h : dupNamesS [] (resp.NameMatches.map Device.DeviceName) = []
  · simp [h, (dupNamesS_nil_iff [] _).mp h]
  · have hlen : 0 < (dupNamesS [] (resp.NameMatches.map Device.DeviceName)).length := by
      cases hc : dupNamesS [] (resp.NameMatches.map Device.DeviceName) with
      | nil => exact absurd hc h
      | cons a l => simp
    simp only [hlen, if_pos]
    constructor
    · intro hfalse
      exact absurd hfalse (by simp)
    · intro hnd
      have : dupNamesS [] (resp.NameMatches.map Device.DeviceName) = [] :=
        (dupNamesS_nil_iff [] _).mpr ⟨hnd, by simp⟩
      exact absurd this h

theorem duplicateCount_distinct (resp : DeviceResponse) :
    duplicateCount resp
        + (distinctNames (resp.NameMatches.map Device.DeviceName)).length
      = resp.NameMatches.length := by
  unfold duplicateCount distinctNames
  rw [checkScan_dups]
  have := dupNamesS_length [] (resp.NameMatches.map Device.DeviceName)
  simp at this
  simpa using this

theorem countTranslate_cons_translate (l : List Event) :
    countTranslate (Event.translateCall :: l) = countTranslate l + 1 := rfl

theorem countTranslate_cons_auth (l : List Event) :
    countTranslate (Event.authCycle :: l) = countTranslate l := rfl

theorem countSalt_cons_translate (l : List Event) :
    countSalt (Event.translateCall :: l) = countSalt l := rfl

theorem countSalt_cons_auth (l : List Event) :
    countSalt (Event.authCycle :: l) = countSalt l := rfl

theorem countTranslate_afterTranslate (args : Args) (w : World)
    (resp : DeviceResponse) :
    countTranslate (afterTranslate args w resp).2 = 0 := by
  unfold afterTranslate
  cases checkForDuplicates resp with
  | error e => rfl
  | ok u =>
    by_cases h : args.Commands.length > 0
    · simp only [h, if_pos]
      unfold runSaltForDevices runSalt
      split
      · rfl
      · rfl
    · simp [h, countTranslate]

theorem countSalt_afterTranslate_nil (args : Args) (w : World)
    (resp : DeviceResponse) (h : args.Commands = []) :
    countSalt (afterTranslate args w resp).2 = 0 := by
  unfold afterTranslate
  cases checkForDuplicates resp with
  | error e => rfl
  | ok u => simp [h, countSalt]

theorem countSalt_translateAndRun_nil (args : Args) (w : World)
    (h : args.Commands = []) :
    countSalt (translateAndRun args w).2 = 0 := by
  unfold translateAndRun
  cases w.t1 with
  | ok resp =>
    show countSalt (Event.translateCall :: (afterTranslate args w resp).2) = 0
    rw [countSalt_cons_translate]
    exact countSalt_afterTranslate_nil args w resp h
  | authErr m =>
    cases authenticateUser w.authedAfterT1 w.pw2 w.save2 with
    | error e => rfl
    | ok u =>
      cases w.t2 with
      | ok resp =>
        show countSalt (Event.translateCall :: Event.authCycle ::
          Event.translateCall :: (afterTranslate args w resp).2) = 0
        rw [countSalt_cons_translate, countSalt_cons_auth,
          countSalt_cons_translate]
        exact countSalt_afterTranslate_nil args w resp h
      | authErr m2 => rfl
      | err m2 => rfl
  | err m => rfl

theorem countSalt_pipeline_nil (args : Args) (w : World)
    (h : args.Commands = []) :
    countSalt (pipeline args w).2 = 0 := by
  unfold pipeline
  by_cases ha : w.apiOk = true
  · by_cases ht : w.hasToken = true
    · simp only [ha, ht, Bool.not_true, Bool.false_eq_true, if_false]
      exact countSalt_translateAndRun_nil args w h
    · have ht' : w.hasToken = false := by
        cases hb : w.hasToken
        · rfl
        · exact absurd hb ht
      simp only [ha, ht', Bool.not_true, Bool.not_false, Bool.false_eq_true,
        if_false, if_true]
      cases authenticateUser w.authedAtStart w.pw1 w.save1 with
      | error e => rfl
      | ok u =>
        show countSalt (Event.authCycle :: (translateAndRun args w).2) = 0
        rw [countSalt_cons_auth]
        exact countSalt_translateAndRun_nil args w h
  · have ha' : w.apiOk = false := by
      cases hb : w.apiOk
      · rfl
      · exact absurd hb ha
    simp [ha', countSalt]

/-- C1, counterexample.  The claim states that a structured query with no
trailing commands and show off fails with an argument-insufficiency error and
dispatches nothing.  On the code, the query group1: parses to one group
reference, yet the run succeeds: the raw text is forwarded to the external
tool, because runMain only tests whether the raw text is non-empty, not
whether it parsed to structure. -/
theorem C1_counterexample :
    (UnmarshalText "group1:").groups = ["group1"] ∧
    runMain ⟨UnmarshalText "group1:", [], false⟩ plainWorld
      = (.ok (), [.saltExec ["sudo", "salt", "group1:"]]) ∧
    countTranslate
      (runMain ⟨UnmarshalText "group1:", [], false⟩ plainWorld).2 = 0 :=
  ⟨by decide, rfl, rfl⟩

/-- C1, amended.  With no trailing commands and show not requested, the run
fails with the argument-insufficiency error exactly when the raw query text
is empty; when the raw text is non-empty, with or without structure, it is
forwarded verbatim to the external tool.  In both cases no translation
network call is made. -/
theorem C1_amended (args : Args) (w : World)
    (hc : args.Commands = []) (hs : args.Show = false) :
    (args.DeviceInfo.rawArg = "" →
      runMain args w
        = (.error "Commands/deviceinfo must be specified", [])) ∧
    (args.DeviceInfo.rawArg ≠ "" →
      runMain args w = runSalt w [args.DeviceInfo.rawArg] ∧
        countTranslate (runMain args w).2 = 0) := by
  have hlen : args.Commands.length = 0 := by simp [hc]
  constructor
  · intro hraw
    have hrq : args.DeviceInfo.RawQuery = false := by
      unfold DeviceQuery.RawQuery
      simp [hraw]
    unfold runMain
    simp [hlen, hrq]
  · intro hraw
    have hpos : 0 < args.DeviceInfo.rawArg.length := by
      rcases Nat.eq_zero_or_pos args.DeviceInfo.rawArg.length with h0 | h0
      · exact absurd ((string_length_zero_iff _).mp h0) hraw
      · exact h0
    have hrq : args.DeviceInfo.RawQuery = true := by
      unfold DeviceQuery.RawQuery
      simp [hpos]
    unfold runMain
    simp [hlen, hrq, hs, runSalt, countTranslate]

/-- C1, witness for the amended theorem. -/
theorem C1_amended_witness :
    ((⟨UnmarshalText "devname", [], false⟩ : Args).Commands = [] ∧
     (⟨UnmarshalText "devname", [], false⟩ : Args).Show = false ∧
     (UnmarshalText "devname").rawArg ≠ "") ∧
    runMain ⟨UnmarshalText "devname", [], false⟩ plainWorld
      = runSalt plainWorld [(UnmarshalText "devname").rawArg] :=
  ⟨⟨rfl, rfl, by decide⟩,
   ((C1_amended ⟨UnmarshalText "devname", [], false⟩ plainWorld rfl rfl).2
      (by decide)).1⟩

/-- C3, counterexample.  The claim states that when command tokens are
supplied and the parsed query has no structure, the command tokens plus the
raw query text are forwarded.  On the code, the branch forwards only the
command tokens: the dispatched vector carries no raw-text argument at all.
The input is the zero query value, the only query state without structure,
since parsing any string yields at least one reference. -/
theorem C3_counterexample :
    (⟨⟨[], [], ""⟩, ["test.ping"], false⟩ : Args).DeviceInfo.HasValues
      = false ∧
    runMain ⟨⟨[], [], ""⟩, ["test.ping"], false⟩ plainWorld
      = (.ok (), [.saltExec ["sudo", "salt", "test.ping"]]) ∧
    ["sudo", "salt", "test.ping"]
      ≠ "sudo" :: "salt" ::
          (["test.ping"] ++ [(⟨[], [], ""⟩ : DeviceQuery).rawArg]) :=
  ⟨rfl, rfl, by decide⟩

/-- C3, amended.  Parsing always yields at least one device or group
reference, so a parsed query without structure arises only when no query
argument was parsed and the raw text is empty.  In that state, with command
tokens supplied, translation is skipped and the command tokens alone are
forwarded unchanged to the orchestration tool; the raw query text is not
appended and no translation network call is made. -/
theorem C3_amended :
    (∀ s, (UnmarshalText s).HasValues = true) ∧
    (∀ (args : Args) (w : World), args.Commands ≠ [] →
      args.DeviceInfo.HasValues = false →
      runMain args w = runSalt w args.Commands ∧
        countTranslate (runMain args w).2 = 0) := by
  refine ⟨unmarshal_hasValues, fun args w hc hv => ?_⟩
  have hlen : ¬ args.Commands.length = 0 := by
    cases hcm : args.Commands with
    | nil => exact absurd hcm hc
    | cons a l => simp [hcm]
  unfold runMain
  simp [hlen, hv, runSalt, countTranslate]

/-- C3, witness for the amended theorem. -/
theorem C3_amended_witness :
    ((⟨⟨[], [], ""⟩, ["state.apply"], false⟩ : Args).Commands ≠ [] ∧
     (⟨⟨[], [], ""⟩, ["state.apply"], false⟩ : Args).DeviceInfo.HasValues
       = false) ∧
    runMain ⟨⟨[], [], ""⟩, ["state.apply"], false⟩ plainWorld
      = runSalt plainWorld ["state.apply"] :=
  ⟨⟨by decide, rfl⟩,
   (C3_amended.2 ⟨⟨[], [], ""⟩, ["state.apply"], false⟩ plainWorld
      (by decide) rfl).1⟩

/-- C4, counterexample.  The claim states that an empty comma-separated term
without a colon is ignored.  On the code, the empty input has exactly one
term, empty and colon-free, and parsing it produces a device reference with
empty group and device name rather than nothing. -/
theorem C4_counterexample :
    trimChars "".toList = [] ∧
    splitOnComma ([] : List Char) = [[]] ∧
    colonIndex ([] : List Char) = none ∧
    UnmarshalText "" = ⟨[⟨"", "", 0⟩], [], ""⟩ :=
  ⟨rfl, rfl, rfl, by decide⟩

/-- C4, amended.  Every comma-separated term, the empty term included, yields
exactly one reference: each term is classified as exactly one of
device-with-group, device-without-group or group-only, and the empty
colon-free term is classified as a device without group whose device name is
empty, not ignored. -/
theorem C4_amended :
    (∀ (dq : DeviceQuery) (t : List Char),
      (unmarshalTerm dq t).devices = dq.devices ++ (termDevice t).toList ∧
      (unmarshalTerm dq t).groups = dq.groups ++ (termGroup t).toList) ∧
    (∀ t, ((termDevice t).isSome ∧ termGroup t = none) ∨
          (termDevice t = none ∧ (termGroup t).isSome)) ∧
    termDevice ([] : List Char) = some ⟨"", "", 0⟩ ∧
    termGroup ([] : List Char) = none :=
  ⟨fun dq t => ⟨(unmarshalTerm_eq dq t).1, (unmarshalTerm_eq dq t).2.1⟩,
   term_exactly_one, by decide, rfl⟩

/-- C8: the query :gp parses to exactly one device reference with empty
group name and device name gp, and group1:,group2:gp parses to exactly the
group reference group1 and the device reference group2:gp. -/
theorem C8_confirmed :
    (UnmarshalText ":gp").devices = [⟨"", "gp", 0⟩] ∧
    (UnmarshalText ":gp").groups = [] ∧
    (UnmarshalText "group1:,group2:gp").groups = ["group1"] ∧
    (UnmarshalText "group1:,group2:gp").devices = [⟨"group2", "gp", 0⟩] :=
  ⟨by decide, by decide, by decide, by decide⟩

/-- C10: for every input string parsing succeeds, stores the untrimmed input
as raw text, and appends exactly one reference per comma-separated term of
the trimmed input, devices and groups each in left-to-right term order. -/
theorem C10_confirmed (s : String) :
    UnmarshalTextE s = .ok (UnmarshalText s) ∧
    (UnmarshalText s).rawArg = s ∧
    (UnmarshalText s).devices.length + (UnmarshalText s).groups.length
      = (splitOnComma (trimChars s.toList)).length ∧
    (UnmarshalText s).devices
      = (splitOnComma (trimChars s.toList)).filterMap termDevice ∧
    (UnmarshalText s).groups
      = (splitOnComma (trimChars s.toList)).filterMap termGroup :=
  ⟨rfl, (unmarshal_parts s).2.2, unmarshal_ref_count s,
   (unmarshal_parts s).1, (unmarshal_parts s).2.1⟩

/-- C6: identifier formatting is deterministic, pure and total; the command
string is the space-joined list of per-device identifiers, each being the
base token pi, extended with a dash and the environment token when that
token is non-empty, then a dash and the decimal numeric id; in particular a
device with id 42 under the test environment formats to pi-test-42 and a
device with id 3 under the empty environment formats to pi-3, for every
server url and every group and device name. -/
theorem C6_confirmed :
    (∀ (u p : String) (devices : List Device),
      saltDeviceCommand u devices p
        = joinSpace (devices.map (fun device => specFormatId device p))) ∧
    (∀ (u g n : String), saltDeviceCommand u [⟨g, n, 42⟩] "test" = "pi-test-42") ∧
    (∀ (u g n : String), saltDeviceCommand u [⟨g, n, 3⟩] "" = "pi-3") := by
  have hfmt : ∀ (u p : String) (device : Device),
      getSaltPrefix u p ++ "-" ++ toString device.SaltId
        = specFormatId device p := by
    intro u p device
    unfold getSaltPrefix specFormatId
    by_cases h : p = "" <;> simp [h, ← String.append_assoc]
  refine ⟨fun u p devices => ?_, fun u g n => rfl, fun u g n => rfl⟩
  rw [saltDeviceCommand_eq_joinSpace]
  congr 1
  exact List.map_congr_left fun d _ => hfmt u p d

/-- C7: for a non-empty device list and non-empty command list, the external
tool is invoked with, in order, the multi-target flag exactly when more than
one device resolved, then the single space-joined identifier argument, then
the original command tokens, all after the sudo and salt tokens. -/
theorem C7_confirmed (w : World) (u : String) (devices : List Device)
    (argCommands : List String) (p : String)
    (hdev : devices ≠ []) (hcmd : argCommands ≠ []) :
    runSaltForDevices w u devices argCommands p
      = (w.saltResult ("sudo" :: "salt" ::
            ((if devices.length > 1 then ["-L"] else []) ++
              [saltDeviceCommand u devices p] ++ argCommands)),
         [Event.saltExec ("sudo" :: "salt" ::
            ((if devices.length > 1 then ["-L"] else []) ++
              [saltDeviceCommand u devices p] ++ argCommands))]) := by
  have hlen : ¬ devices.length = 0 := by
    cases devices with
    | nil => exact absurd rfl hdev
    | cons d l => simp
  unfold runSaltForDevices runSalt
  simp [hlen]

/-- C7, witness. -/
theorem C7_witness :
    (([⟨"g1", "d1", 1⟩, ⟨"g2", "d2", 2⟩] : List Device) ≠ [] ∧
     (["test.ping"] : List String) ≠ []) ∧
    runSaltForDevices plainWorld "u" [⟨"g1", "d1", 1⟩, ⟨"g2", "d2", 2⟩]
        ["test.ping"] ""
      = (.ok (), [Event.saltExec
          ["sudo", "salt", "-L", "pi-1 pi-2", "test.ping"]]) := by
  refine ⟨⟨by decide, by decide⟩, ?_⟩
  have h := C7_confirmed plainWorld "u" [⟨"g1", "d1", 1⟩, ⟨"g2", "d2", 2⟩]
    ["test.ping"] "" (by decide) (by decide)
  rw [h]
  rfl

/-- C2, counterexample.  The claim states that the duplicate check groups
all resolved devices and that the reported count is the number of distinct
ambiguous names.  On the code, first, devices resolved from group references
are not inspected: a response whose Devices list holds two devices of the
same name passes the check.  Second, three name matches sharing one name
produce an error whose count is 2, while the number of distinct ambiguous
names is 1. -/
theorem C2_counterexample :
    checkForDuplicates ⟨[⟨"ga", "dup", 1⟩, ⟨"gb", "dup", 2⟩], []⟩ = .ok () ∧
    specAmbiguousNameCount
        ((⟨[⟨"ga", "dup", 1⟩, ⟨"gb", "dup", 2⟩], []⟩ : DeviceResponse).Devices
          ++ (⟨[⟨"ga", "dup", 1⟩, ⟨"gb", "dup", 2⟩], []⟩ : DeviceResponse).NameMatches)
      = 1 ∧
    checkForDuplicates
        ⟨[], [⟨"g1", "gp", 5⟩, ⟨"g2", "gp", 9⟩, ⟨"g3", "gp", 11⟩]⟩
      = .error (dupMessage 2) ∧
    specAmbiguousNameCount
        [⟨"g1", "gp", 5⟩, ⟨"g2", "gp", 9⟩, ⟨"g3", "gp", 11⟩] = 1 :=
  ⟨rfl, by decide, rfl, by decide⟩

/-- C2, amended.  The duplicate check groups only the name-matched resolved
devices by bare device name; it fails exactly when some device name occurs
more than once among the name matches; the error carries the number of
duplicate occurrences beyond each name's first, that is the number of name
matches minus the number of distinct names among them; and on failure
nothing is formatted or dispatched: the step returns the error with an empty
event trace. -/
theorem C2_amended (resp : DeviceResponse) :
    (checkForDuplicates resp = .ok ()
      ↔ (resp.NameMatches.map Device.DeviceName).Nodup) ∧
    (¬ (resp.NameMatches.map Device.DeviceName).Nodup →
      checkForDuplicates resp = .error (dupMessage (duplicateCount resp))) ∧
    (duplicateCount resp
        + (distinctNames (resp.NameMatches.map Device.DeviceName)).length
      = resp.NameMatches.length) ∧
    (∀ (args : Args) (w : World) (e : String),
      checkForDuplicates resp = .error e →
      afterTranslate args w resp = (.error e, [])) := by
  refine ⟨checkForDuplicates_ok_iff resp, ?_, duplicateCount_distinct resp, ?_⟩
  · intro hnd
    have hne : ¬ checkForDuplicates resp = .ok () := fun hok =>
      hnd ((checkForDuplicates_ok_iff resp).mp hok)
    unfold checkForDuplicates at hne ⊢
    by_cases hlen : (checkScan resp.NameMatches).2.length > 0
    · simp only [hlen, if_pos]
      unfold duplicateCount
      rfl
    · simp [hlen] at hne
  · intro args w e he
    unfold afterTranslate
    rw [he]

/-- C2, witness for the amended theorem. -/
theorem C2_amended_witness :
    (¬ ((⟨[], [⟨"g1", "gp", 5⟩, ⟨"g2", "gp", 9⟩]⟩ :
        DeviceResponse).NameMatches.map Device.DeviceName).Nodup) ∧
    checkForDuplicates ⟨[], [⟨"g1", "gp", 5⟩, ⟨"g2", "gp", 9⟩]⟩
      = .error (dupMessage
          (duplicateCount ⟨[], [⟨"g1", "gp", 5⟩, ⟨"g2", "gp", 9⟩]⟩)) :=
  ⟨by decide,
   (C2_amended ⟨[], [⟨"g1", "gp", 5⟩, ⟨"g2", "gp", 9⟩]⟩).2.1 (by decide)⟩

/-- C9: with no command tokens and a non-empty query free of the colon and
comma structural syntax, the run forwards the raw query text unchanged as
the sole command to the external tool; under show-only mode nothing is
dispatched to the external tool. -/
theorem C9_confirmed (args : Args) (w : World)
    (hcmd : args.Commands = []) (hraw : args.DeviceInfo.rawArg ≠ "")
    (hmark : noStructuralMarkers args.DeviceInfo.rawArg = true) :
    (args.Show = false →
      runMain args w
        = (w.saltResult ["sudo", "salt", args.DeviceInfo.rawArg],
           [Event.saltExec ["sudo", "salt", args.DeviceInfo.rawArg]])) ∧
    (args.Show = true → countSalt (runMain args w).2 = 0) := by
  have hlen : args.Commands.length = 0 := by simp [hcmd]
  have hpos : 0 < args.DeviceInfo.rawArg.length := by
    rcases Nat.eq_zero_or_pos args.DeviceInfo.rawArg.length with h0 | h0
    · exact absurd ((string_length_zero_iff _).mp h0) hraw
    · exact h0
  have hrq : args.DeviceInfo.RawQuery = true := by
    unfold DeviceQuery.RawQuery
    simp [hpos]
  constructor
  · intro hs
    unfold runMain
    simp [hlen, hrq, hs, runSalt]
  · intro hs
    unfold runMain
    simp only [hlen, if_pos, hrq, hs, Bool.not_true, Bool.false_eq_true,
      if_false, if_true]
    exact countSalt_pipeline_nil args w hcmd

/-- C9, witness. -/
theorem C9_witness :
    ((⟨UnmarshalText "gp", [], false⟩ : Args).Commands = [] ∧
     (UnmarshalText "gp").rawArg ≠ "" ∧
     noStructuralMarkers (UnmarshalText "gp").rawArg = true) ∧
    runMain ⟨UnmarshalText "gp", [], false⟩ plainWorld
      = (.ok (), [Event.saltExec ["sudo", "salt", "gp"]]) := by
  refine ⟨⟨rfl, by decide, by decide⟩, ?_⟩
  have h := (C9_confirmed ⟨UnmarshalText "gp", [], false⟩ plainWorld rfl
    (by decide) (by decide)).1 rfl
  rw [h]
  rfl

/-- C5: when the first translation call fails with an authentication error,
a fresh authentication cycle is triggered; the interactive prompt inside a
cycle aborts after exactly three wrong passwords with the Max Password
Attempts error; the translation is retried exactly once, so at most two and,
when the cycle succeeds, exactly two translation calls occur; and whenever
the cycle or the retried translation fails, the run aborts with that error
without ever invoking the external orchestration tool. -/
theorem C5_confirmed (args : Args) (w : World) (m : String)
    (hcmd : args.Commands ≠ []) (hval : args.DeviceInfo.HasValues = true)
    (hapi : w.apiOk = true) (htok : w.hasToken = true)
    (ht1 : w.t1 = TransResult.authErr m) :
    Event.authCycle ∈ (runMain args w).2 ∧
    countTranslate (runMain args w).2 ≤ 2 ∧
    (∀ (rest : List PwOutcome) (save : Except String Unit),
      authenticateUser false
        (PwOutcome.wrongPassword :: PwOutcome.wrongPassword ::
          PwOutcome.wrongPassword :: rest) save
        = .error "Max Password Attempts") ∧
    (authenticateUser w.authedAfterT1 w.pw2 w.save2 = .ok () →
      countTranslate (runMain args w).2 = 2) ∧
    (∀ e, authenticateUser w.authedAfterT1 w.pw2 w.save2 = .ok () →
      (w.t2 = TransResult.authErr e ∨ w.t2 = TransResult.err e) →
      (runMain args w).1 = .error e ∧ countSalt (runMain args w).2 = 0) ∧
    (∀ e, authenticateUser w.authedAfterT1 w.pw2 w.save2 = .error e →
      (runMain args w).1 = .error e ∧ countSalt (runMain args w).2 = 0) := by
  have hcap : ∀ (rest : List PwOutcome) (save : Except String Unit),
      authenticateUser false
        (PwOutcome.wrongPassword :: PwOutcome.wrongPassword ::
          PwOutcome.wrongPassword :: rest) save
        = .error "Max Password Attempts" := fun rest save => rfl
  have hlen : ¬ args.Commands.length = 0 := by
    cases hcm : args.Commands with
    | nil => exact absurd hcm hcmd
    | cons a l => simp [hcm]
  have hrm : runMain args w = translateAndRun args w := by
    unfold runMain pipeline
    simp [hlen, hval, hapi, htok]
  rw [hrm]
  cases hauth : authenticateUser w.authedAfterT1 w.pw2 w.save2 with
  | error e0 =>
    have htr : translateAndRun args w
        = (.error e0, [Event.translateCall, Event.authCycle]) := by
      unfold translateAndRun
      rw [ht1, hauth]
    rw [htr]
    refine ⟨by simp, by simp [countTranslate], hcap, ?_, ?_, ?_⟩
    · intro hok
      simp at hok
    · intro e hok
      simp at hok
    · intro e he
      have : e0 = e := by simpa using he
      subst this
      exact ⟨rfl, rfl⟩
  | ok u0 =>
    cases ht2 : w.t2 with
    | ok resp =>
      have htr : translateAndRun args w
          = ((afterTranslate args w resp).1,
             Event.translateCall :: Event.authCycle :: Event.translateCall ::
               (afterTranslate args w resp).2) := by
        unfold translateAndRun
        rw [ht1, hauth, ht2]
      rw [htr]
      have hct : countTranslate
          (Event.translateCall :: Event.authCycle :: Event.translateCall ::
            (afterTranslate args w resp).2) = 2 := by
        rw [countTranslate_cons_translate, countTranslate_cons_auth,
          countTranslate_cons_translate, countTranslate_afterTranslate]
      refine ⟨by simp, by rw [hct], hcap, fun _ => hct, ?_, ?_⟩
      · intro e _ hor
        rcases hor with hx | hx <;> simp at hx
      · intro e he
        simp at he
    | authErr m2 =>
      have htr : translateAndRun args w
          = (.error m2,
             [Event.translateCall, Event.authCycle, Event.translateCall]) := by
        unfold translateAndRun
        rw [ht1, hauth, ht2]
      rw [htr]
      refine ⟨by simp, by simp [countTranslate], hcap,
        fun _ => by simp [countTranslate], ?_, ?_⟩
      · intro e _ hor
        have : m2 = e := by
          rcases hor with hx | hx
          · simpa using hx
          · exact absurd hx (by simp)
        subst this
        exact ⟨rfl, rfl⟩
      · intro e he
        simp at he
    | err m2 =>
      have htr : translateAndRun args w
          = (.error m2,
             [Event.translateCall, Event.authCycle, Event.translateCall]) := by
        unfold translateAndRun
        rw [ht1, hauth, ht2]
      rw [htr]
      refine ⟨by simp, by simp [countTranslate], hcap,
        fun _ => by simp [countTranslate], ?_, ?_⟩
      · intro e _ hor
        have : m2 = e := by
          rcases hor with hx | hx
          · exact absurd hx (by simp)
          · simpa using hx
        subst this
        exact ⟨rfl, rfl⟩
      · intro e he
        simp at he

/-- C5, witness. -/
theorem C5_witness :
    ((["test.ping"] : List String) ≠ [] ∧
     (UnmarshalText "group2:gp").HasValues = true ∧
     authFailWorld.apiOk = true ∧
     authFailWorld.hasToken = true ∧
     authFailWorld.t1 = TransResult.authErr "authentication required") ∧
    Event.authCycle ∈
      (runMain ⟨UnmarshalText "group2:gp", ["test.ping"], false⟩
        authFailWorld).2 :=
  ⟨⟨by decide, by decide, rfl, rfl, rfl⟩,
   (C5_confirmed ⟨UnmarshalText "group2:gp", ["test.ping"], false⟩
      authFailWorld "authentication required" (by decide) (by decide)
      rfl rfl rfl).1⟩

end Csalt
